import Mathlib

/-!
Verification of the FC6A / MicroSmart maintenance-protocol client.

Shallow embedding of `SERIAL/MiSmSerial.py` (serial protocol engine) and
`src/fc6a.py` (socket client).  Byte strings (`bytes`) and ASCII strings
(`str`) are both modelled as `List Nat` of byte / code-point values.
Raised Python exceptions are modelled as `none` of an `Option` result.
-/

namespace FC6A

/-- ASCII whitespace accepted around a numeral by `int(s, base)`:
space, `\t`, `\n`, `\v`, `\f`, `\r`. -/
def isIntSpace (c : Nat) : Bool :=
  (9 ≤ c && c ≤ 13) || c = 32

/-- ASCII-range whitespace stripped by Python's `str.strip()` (the
`int` set plus the file/group/record/unit separators 28-31). -/
def isStripSpace (c : Nat) : Bool :=
  (9 ≤ c && c ≤ 13) || (28 ≤ c && c ≤ 32)

/-- Python `str.strip()` on an ASCII string. -/
def pyStrip (s : List Nat) : List Nat :=
  ((s.dropWhile isStripSpace).reverse.dropWhile isStripSpace).reverse

/-- Whitespace stripping done by `int(s, base)` itself. -/
def intStrip (s : List Nat) : List Nat :=
  ((s.dropWhile isIntSpace).reverse.dropWhile isIntSpace).reverse

/-- Python `str.upper()` on an ASCII string. -/
def pyUpper (s : List Nat) : List Nat :=
  s.map (fun c => if 97 ≤ c ∧ c ≤ 122 then c - 32 else c)

/-- ASCII decimal digit `'0'..'9'` (Python `str.isdigit` on ASCII text). -/
def isDigitChar (c : Nat) : Bool := 48 ≤ c && c ≤ 57

/-- Model of `int(s)` on an all-digit ASCII string. -/
def digitsToNat (s : List Nat) : Nat :=
  s.foldl (fun a c => 10 * a + (c - 48)) 0

/-- Model of `_is_hex_ascii`: character is `'0'..'9'` or `'A'..'F'` (uppercase only). -/
def isUpperHexDigit (c : Nat) : Bool :=
  (48 ≤ c && c ≤ 57) || (65 ≤ c && c ≤ 70)

/-- Model of `_is_hex_ascii(data)`: every byte is `'0'..'9'` or `'A'..'F'`. -/
def isHexAscii (s : List Nat) : Bool :=
  s.all isUpperHexDigit

/-- Model of `_xor_bcc`: running XOR of every byte, masked to 8 bits. -/
def xorBcc (data : List Nat) : Nat :=
  (data.foldl (fun x b => x ^^^ b) 0) % 256

/-- Uppercase hex digit character of a nibble value. -/
def hexCharUpper (n : Nat) : Nat := if n < 10 then 48 + n else 55 + n

/-- Uppercase hex digits of `n`, most significant first (empty for `n = 0`);
the first argument is structural fuel, `fuel ≥ n` is always enough. -/
def hexDigitsGo : Nat → Nat → List Nat
  | 0, _ => []
  | Nat.succ fuel, n =>
    if n = 0 then [] else hexDigitsGo fuel (n / 16) ++ [hexCharUpper (n % 16)]

/-- Uppercase hex rendering of `n` (Python `f"{n:X}"`). -/
def hexDigits (n : Nat) : List Nat :=
  if n = 0 then [48] else hexDigitsGo n n

/-- Python `f"{n:04X}"` for a nonnegative value: hex digits left-padded
with `'0'` to at least 4 characters. -/
def pyFormat04X (n : Nat) : List Nat :=
  List.replicate (4 - (hexDigits n).length) 48 ++ hexDigits n

/-- Python `f"{n:02X}"` for a nonnegative value. -/
def pyFormat02X (n : Nat) : List Nat :=
  List.replicate (2 - (hexDigits n).length) 48 ++ hexDigits n

/-- Decimal digits of `n`, most significant first (empty for `n = 0`);
fuel-structured as in `hexDigitsGo`. -/
def decDigitsGo : Nat → Nat → List Nat
  | 0, _ => []
  | Nat.succ fuel, n =>
    if n = 0 then [] else decDigitsGo fuel (n / 10) ++ [48 + n % 10]

/-- Decimal rendering of `n` (Python `str(n)` for `n ≥ 0`). -/
def decDigits (n : Nat) : List Nat :=
  if n = 0 then [48] else decDigitsGo n n

/-- Python `f"{n:04d}"` for a nonnegative value. -/
def pyFormat04d (n : Nat) : List Nat :=
  List.replicate (4 - (decDigits n).length) 48 ++ decDigits n

/-- Model of `_to_ascii_hex_byte`: `f"{b & 0xFF:02X}"`, always exactly two uppercase
hex characters. -/
def toAsciiHexByte (b : Nat) : List Nat :=
  [hexCharUpper (b % 256 / 16), hexCharUpper (b % 256 % 16)]

/-- Value of a single hex digit character, accepting both cases
(as Python's `int(s, 16)` does). -/
def hexVal? (c : Nat) : Option Nat :=
  if 48 ≤ c ∧ c ≤ 57 then some (c - 48)
  else if 65 ≤ c ∧ c ≤ 70 then some (c - 55)
  else if 97 ≤ c ∧ c ≤ 102 then some (c - 87)
  else none

/-- Continuation of `hexBody`: remaining digits, allowing a single `'_'`
between two digits (Python numeric-literal underscore rule). -/
def hexTail (acc : Nat) : List Nat → Option Nat
  | [] => some acc
  | c :: rest =>
    if c = 95 then
      match rest with
      | [] => none
      | c2 :: rest2 =>
        match hexVal? c2 with
        | some v => hexTail (16 * acc + v) rest2
        | none => none
    else
      match hexVal? c with
      | some v => hexTail (16 * acc + v) rest
      | none => none

/-- A nonempty run of hex digits with internal underscores. -/
def hexBody : List Nat → Option Nat
  | [] => none
  | c :: rest =>
    match hexVal? c with
    | some v => hexTail v rest
    | none => none

/-- What may follow a `0x` prefix: one underscore is allowed directly
after the prefix, then hex digits. -/
def hexAfterBase : List Nat → Option Nat
  | 95 :: rest2 => hexBody rest2
  | rest => hexBody rest

/-- Digits part of `int(s, 16)` after the optional sign: an optional
`0x`/`0X` prefix, then hex digits. -/
def hexAfterSign (s : List Nat) : Option Nat :=
  match s with
  | c0 :: c1 :: rest =>
    if c0 = 48 ∧ (c1 = 120 ∨ c1 = 88) then hexAfterBase rest
    else hexBody s
  | _ => hexBody s

/-- The stripped numeral of `int(s, 16)`: an optional single sign, then
the (possibly `0x`-prefixed) digits. -/
def pyIntSigned : List Nat → Option Int
  | [] => none
  | c :: rest =>
    if c = 43 then (hexAfterSign rest).map (fun n => (n : Int))
    else if c = 45 then (hexAfterSign rest).map (fun n => -(n : Int))
    else (hexAfterSign (c :: rest)).map (fun n => (n : Int))

/-- Python `int(two_or_more_bytes.decode("ascii"), 16)` on a byte string:
strict ASCII decode (any byte ≥ 128 raises), surrounding whitespace and a
single sign are accepted, lowercase hex digits are accepted.  `none`
models a raised exception. -/
def pyIntBase16 (s : List Nat) : Option Int :=
  if s.any (fun c => 128 ≤ c) then none
  else pyIntSigned (intStrip s)

/-- The six reply classifications of `_parse_reply`. -/
inductive ReplyKind where
  | ACK_OK
  | ACK_NG
  | NAK
  | MALFORMED
  | EMPTY
  | UNKNOWN
  deriving DecidableEq

/-- The `Reply` dataclass. `device`/`command` and the codes hold the result
of `bytes.decode("ascii", errors="replace")`, see `decodeReplace`. -/
structure Reply where
  kind : ReplyKind
  raw : List Nat
  ctrl : List Nat
  device : List Nat
  command : List Nat
  data : List Nat
  bccRecv : Option Int
  bccCalc : Option Int
  bccOk : Bool
  ngCode : List Nat
  nakCode : List Nat
  deriving DecidableEq

/-- Model of `bytes.decode("ascii", errors="replace")`: bytes ≥ 128 become the
replacement character U+FFFD. -/
def decodeReplace (s : List Nat) : List Nat :=
  s.map (fun c => if c < 128 then c else 65533)

/-- The reply's data field `raw[4:-3]` (for a well-formed reply). -/
def replyData (raw : List Nat) : List Nat :=
  (raw.drop 4).take (raw.length - 7)

/-- The reply checksum `_xor_bcc(raw[0:-3])` computed by `_parse_reply`:
XOR over every byte except the two checksum digits and the terminator,
including the leading control byte. -/
def replyCalc (raw : List Nat) : Int :=
  (xorBcc (raw.take (raw.length - 3)) : Nat)

/-- Model of `data[:2].decode("ascii", errors="replace") if len(data) >= 2 else ""`:
the 2-character NAK rejection / ACK-NG error code. -/
def codeOf (raw : List Nat) : List Nat :=
  if 2 ≤ (replyData raw).length then decodeReplace ((replyData raw).take 2) else []

/-- The well-formed branch of `_parse_reply`, after the received checksum
digits have been parsed as `bccRecv`: classify by the control byte. -/
def parseReplyWf (raw : List Nat) (bccRecv : Int) : Reply :=
  if raw.take 1 = [21] then
    { kind := .NAK, raw := raw, ctrl := raw.take 1,
      device := decodeReplace ((raw.drop 1).take 2),
      command := decodeReplace ((raw.drop 3).take 1),
      data := replyData raw, bccRecv := some bccRecv,
      bccCalc := some (replyCalc raw), bccOk := replyCalc raw == bccRecv,
      ngCode := [], nakCode := codeOf raw }
  else if raw.take 1 = [6] then
    if decodeReplace ((raw.drop 3).take 1) = [50] then
      { kind := .ACK_NG, raw := raw, ctrl := raw.take 1,
        device := decodeReplace ((raw.drop 1).take 2),
        command := decodeReplace ((raw.drop 3).take 1),
        data := replyData raw, bccRecv := some bccRecv,
        bccCalc := some (replyCalc raw), bccOk := replyCalc raw == bccRecv,
        ngCode := codeOf raw, nakCode := [] }
    else
      { kind := .ACK_OK, raw := raw, ctrl := raw.take 1,
        device := decodeReplace ((raw.drop 1).take 2),
        command := decodeReplace ((raw.drop 3).take 1),
        data := replyData raw, bccRecv := some bccRecv,
        bccCalc := some (replyCalc raw), bccOk := replyCalc raw == bccRecv,
        ngCode := [], nakCode := [] }
  else
    { kind := .UNKNOWN, raw := raw, ctrl := raw.take 1,
      device := decodeReplace ((raw.drop 1).take 2),
      command := decodeReplace ((raw.drop 3).take 1),
      data := replyData raw, bccRecv := some bccRecv,
      bccCalc := some (replyCalc raw), bccOk := replyCalc raw == bccRecv,
      ngCode := [], nakCode := [] }

/-- Model of `_parse_reply`. -/
def parseReply (raw : List Nat) : Reply :=
  if raw = [] then
    { kind := .EMPTY, raw := raw, ctrl := [], device := [], command := [],
      data := [], bccRecv := none, bccCalc := none, bccOk := false,
      ngCode := [], nakCode := [] }
  else if raw.getLast? ≠ some 13 ∨ raw.length < 6 then
    { kind := .MALFORMED, raw := raw, ctrl := [], device := [], command := [],
      data := [], bccRecv := none, bccCalc := none, bccOk := false,
      ngCode := [], nakCode := [] }
  else
    match pyIntBase16 ((raw.drop (raw.length - 3)).take 2) with
    | none =>
      { kind := .MALFORMED, raw := raw, ctrl := [], device := [], command := [],
        data := [], bccRecv := none, bccCalc := none, bccOk := false,
        ngCode := [], nakCode := [] }
    | some bccRecv => parseReplyWf raw bccRecv

/-- Model of `_xfer_once` after the transport step: parse the raw reply bytes and
raise (`none`) when an ACK/NG/NAK reply carries a mismatching checksum. -/
def xferOnceReply (raw : List Nat) : Option Reply :=
  if ((parseReply raw).kind = .ACK_OK ∨ (parseReply raw).kind = .ACK_NG ∨
      (parseReply raw).kind = .NAK) ∧ (parseReply raw).bccOk = false
  then none
  else some (parseReply raw)

/-- The session's request-checksum mode (`self.bcc_mode`). -/
inductive BccMode where
  | auto
  | enq
  | noEnq
  deriving DecidableEq

/-- Model of `MiSmSerial.__init__`'s validation of the `bcc_mode` argument: the
session starts in the given mode, any other string raises. -/
def initBccMode (s : List Nat) : Option BccMode :=
  if s = [97, 117, 116, 111] then some .auto
  else if s = [101, 110, 113] then some .enq
  else if s = [110, 111, 95, 101, 110, 113] then some .noEnq
  else none

/-- Model of `_frame_req`: ENQ + device + cont + cmd + dtype + payload + BCC + CR,
with the BCC computed over the body with or without the leading 0x05. -/
def frameReq (device cont cmd dtype payload : List Nat) (includeEnq : Bool) :
    Option (List Nat) :=
  if ¬ (cont = [48] ∨ cont = [49]) then none
  else if cmd.length ≠ 1 ∨ dtype.length ≠ 1 then none
  else
    let body := device ++ cont ++ cmd ++ dtype ++ payload
    let bcc := xorBcc (if includeEnq then 5 :: body else body)
    some (5 :: body ++ toAsciiHexByte bcc ++ [13])

/-- The retry point of `_xfer`'s auto branch: outcome of the
exclude-marker retry (`none` = the retry itself raised, propagated with
the mode still auto).  On ACK_OK the session locks to exclude-marker. -/
def xferAuto2 (retry : Option Reply) : BccMode × Option Reply :=
  match retry with
  | none => (.auto, none)
  | some rep2 => (if rep2.kind = .ACK_OK then .noEnq else .auto, some rep2)

/-- Model of `_xfer`'s auto branch, given the outcome of the include-marker first
attempt: on NAK "10" retry once with the marker excluded; on ACK_OK lock
to include-marker; otherwise return the reply with the mode unchanged. -/
def xferAuto1 (env : Bool → List Nat) : Option Reply → BccMode × Option Reply
  | none => (.auto, none)
  | some rep =>
    if rep.kind = .NAK ∧ rep.nakCode = [49, 48] then
      xferAuto2 (xferOnceReply (env false))
    else if rep.kind = .ACK_OK then (.enq, some rep)
    else (.auto, some rep)

/-- Model of `_xfer`: one transaction under the session's checksum mode.  The
transport is abstracted as `env`, mapping the `include_enq` flag of the
sent request to the raw reply bytes received.  Returns the new session
mode together with the reply (`none` = a raised error). -/
def xfer : BccMode → (Bool → List Nat) → BccMode × Option Reply
  | .enq, env => (.enq, xferOnceReply (env true))
  | .noEnq, env => (.noEnq, xferOnceReply (env false))
  | .auto, env => xferAuto1 env (xferOnceReply (env true))

/-- A Python value that is either a `str` (ASCII, as a code-point list)
or an `int`. -/
inductive PyVal where
  | ofStr (s : List Nat)
  | ofInt (n : Int)
  deriving DecidableEq

/-- Model of `_parse_addr(addr, dtype)`: a string "D0100"-style address, or a bare
int together with a 1-character `dtype`.  `none` models the raised
`ValueError` (the invalid-address error). -/
def parseAddr : PyVal → Option (List Nat) → Option (List Nat × Int)
  | .ofInt _, none => none
  | .ofInt n, some d => if d.length = 1 then some (d, n) else none
  | .ofStr s0, _ =>
    if (pyStrip s0).length < 2 then none
    else if ((pyStrip s0).drop 1).all isDigitChar then
      some ((pyStrip s0).take 1, (digitsToNat ((pyStrip s0).drop 1) : Nat))
    else none

/-- Model of `_pad4(num)`: 4-digit decimal operand field, raises outside 0..9999. -/
def pad4 (num : Int) : Option (List Nat) :=
  if num < 0 ∨ 9999 < num then none else some (pyFormat04d num.toNat)

/-- Model of `_dtype_for_bit`: lowercase letter for the bit classes X/Y/M/R. -/
def dtypeForBit (d : List Nat) : Option (List Nat) :=
  if d = [88] ∨ d = [120] then some [120]
  else if d = [89] ∨ d = [121] then some [121]
  else if d = [77] ∨ d = [109] then some [109]
  else if d = [82] ∨ d = [114] then some [114]
  else none

/-- Model of `_dtype_for_nbyte`: any single-character type letter. -/
def dtypeForNbyte (d : List Nat) : Option (List Nat) :=
  if d.length = 1 then some d else none

/-- The string arm of `_parse_io`, after `str(io).strip().upper()`:
dispatch on the leading letter, validating it against the direction. -/
def parseIoStr : Bool → List Nat → Option (List Nat × Nat)
  | _, [] => none
  | isOut, head :: tail =>
    if head = 81 then
      if ¬ isOut then none
      else if tail ≠ [] ∧ tail.all isDigitChar then some ([89], digitsToNat tail)
      else none
    else if head = 73 then
      if isOut then none
      else if tail ≠ [] ∧ tail.all isDigitChar then some ([88], digitsToNat tail)
      else none
    else if head = 89 ∨ head = 88 then
      if ¬ ((head = 89) = isOut) then none
      else if tail ≠ [] ∧ tail.all isDigitChar then some ([head], digitsToNat tail)
      else none
    else none

/-- Model of `_parse_io(io, is_out)`: simple enumerable I/O addressing.  A bare int
0..9999 maps to Y (output) or X (input); a string Q/I/Y/X + digits is
validated against the requested direction. -/
def parseIoAddr : PyVal → Bool → Option (List Nat × Nat)
  | .ofInt n, isOut =>
    if n < 0 ∨ 9999 < n then none
    else some (if isOut then ([89], n.toNat) else ([88], n.toNat))
  | .ofStr s0, isOut => parseIoStr isOut (pyUpper (pyStrip s0))

/-- The 4-hex-character value field of `MiSmSerial.write`: the value is
masked with `& 0xFFFF` before being rendered as `f"{w:04X}"`. -/
def wordField (value : Int) : List Nat :=
  pyFormat04X (value % 65536).toNat

/-- Model of `MiSmSerial.write` up to the wire: the request payload
(4-digit operand + "02" + 4-hex masked value) and the returned value. -/
def writeWordSerial (op : Int) (value : Int) : Option (List Nat × Int) :=
  (pad4 op).map (fun p => (p ++ [48, 50] ++ wordField value, value % 65536))

/-- Data decode of `MiSmSerial.read` after a successful transfer: the
data field must be 4 uppercase-hex characters, decoded as a 16-bit word. -/
def readWordSerial (data : List Nat) : Option Nat :=
  if data.length = 4 ∧ isHexAscii data then
    match pyIntBase16 data with
    | some v => some v.toNat
    | none => none
  else none

/-- Data decode of `MiSmSerial.read_float`: 8 uppercase-hex characters
giving two 16-bit words `w0, w1`; the endian flag selects which word is
the high half of the 32-bit big-endian IEEE-754 pattern handed to
`struct.unpack(">f", ...)`.  The result is that 32-bit pattern
(the purely numeric part; the final bit-pattern-to-float step is the only
floating-point operation and is bit-exact). -/
def readFloatBits (data : List Nat) (endian : Int) : Option Nat :=
  if data.length = 8 ∧ isHexAscii data then
    match pyIntBase16 (data.take 4), pyIntBase16 (data.drop 4) with
    | some i0, some i1 =>
      if endian = 0 then
        if i1.toNat < 65536 ∧ i0.toNat < 65536 then some (i1.toNat * 65536 + i0.toNat)
        else none
      else if endian = 1 then
        if i0.toNat < 65536 ∧ i1.toNat < 65536 then some (i0.toNat * 65536 + i1.toNat)
        else none
      else none
    | _, _ => none
  else none

/-- The 8-hex-character data field written by `MiSmSerial.write_float`,
starting from the 32-bit big-endian IEEE-754 pattern `bits` that
`struct.pack(">f", value)` produced (`high, low = bits >> 16, bits & 0xFFFF`;
endian 0 puts the low word first, endian 1 the high word first). -/
def writeFloatField (bits : Nat) (endian : Int) : Option (List Nat) :=
  if endian = 0 then some (pyFormat04X (bits % 65536) ++ pyFormat04X (bits / 65536))
  else if endian = 1 then some (pyFormat04X (bits / 65536) ++ pyFormat04X (bits % 65536))
  else none

/-- Model of `MiSmSerial.output` up to the wire: the data type character and the
exact 5-character payload `f"{b:04d}{v}"`, plus the returned value.
Fails (`none`) inside `_parse_io` before any I/O. -/
def output (bit : PyVal) (onv : Int) : Option (List Nat × List Nat × Int) :=
  (parseIoAddr bit true).map (fun a =>
    ([121], pyFormat04d a.2 ++ [if onv = 0 then 48 else 49], if onv = 0 then 0 else 1))

/-- Model of `MiSmSerial.read_bit` up to the wire: the (lowercase) bit data type
and the 4-digit operand payload. -/
def readBitReq (addr : PyVal) (dtype : Option (List Nat)) :
    Option (List Nat × List Nat) :=
  (parseAddr addr dtype).bind (fun a =>
    (dtypeForBit (pyUpper a.1)).bind (fun bd =>
      (pad4 a.2).map (fun p => (bd, p))))

/-- Model of `MiSmSerial.input` up to the wire: `_parse_io(bit, is_out=False)` then
`read_bit(b, 0, dtype="X")`. -/
def inputOp (bit : PyVal) : Option (List Nat × List Nat) :=
  (parseIoAddr bit false).bind (fun a =>
    readBitReq (.ofInt (a.2 : Int)) (some [88]))

/-- Model of `fc6a._bcc`: XOR of all bytes rendered as `f"{bcc:02X}"`. -/
def fc6aBcc (data : List Nat) : List Nat :=
  pyFormat02X (data.foldl (fun x b => x ^^^ b) 0)

/-- Model of `fc6a._frame`: append BCC and CR. -/
def fc6aFrame (msg : List Nat) : List Nat :=
  msg ++ fc6aBcc msg ++ [13]

/-- Model of `FC6AMaint._build_read`: ENQ + device + "0R" + dtype +
`f"{addr:04d}{nbytes:02X}"`, framed. -/
def fc6aBuildRead (device : List Nat) (dtype : List Nat) (addr : Nat)
    (nbytes : Nat) : List Nat :=
  fc6aFrame ([5] ++ device ++ [48, 82] ++ dtype ++ pyFormat04d addr ++ pyFormat02X nbytes)

/-- Reply handling of `FC6AMaint.read_bits`: raise unless the first byte
is 0x06, then return the single boolean `chr(resp[4]) == "1"`
(an out-of-range index raises). -/
def fc6aReadBits (resp : List Nat) : Option Bool :=
  if resp = [] then none
  else if resp.head? ≠ some 6 then none
  else (resp.get? 4).map (fun c => c == 49)

/-- Reply handling of `FC6AMaint.read_word`: raise unless the first byte
is 0x06, then decode `resp[4:-3]` with `int(·, 16)` — no checksum or
terminator validation at all. -/
def fc6aReadWord (resp : List Nat) : Option Int :=
  match resp.head? with
  | none => none
  | some c =>
    if c ≠ 6 then none
    else pyIntBase16 ((resp.drop 4).take (resp.length - 7))

/-- The data-hex field `f"{value:04X}"` sent by `FC6AMaint.write_word`
(no masking is applied to the value). -/
def fc6aWriteDataHex (value : Nat) : List Nat :=
  pyFormat04X value

/-- Value of a string of hex digits, accumulator style. -/
def hexFold (acc : Nat) (s : List Nat) : Nat :=
  s.foldl (fun a c => 16 * a + (hexVal? c).getD 0) acc

theorem hexFold_nil (acc : Nat) : hexFold acc [] = acc := rfl

theorem hexFold_cons (acc c : Nat) (t : List Nat) :
    hexFold acc (c :: t) = hexFold (16 * acc + (hexVal? c).getD 0) t := rfl

theorem hexFold_append (acc : Nat) (xs ys : List Nat) :
    hexFold acc (xs ++ ys) = hexFold (hexFold acc xs) ys := by
  simp [hexFold, List.foldl_append]

theorem hexVal?_hexCharUpper : ∀ m, m < 16 → hexVal? (hexCharUpper m) = some m := by
  decide

theorem isUpperHexDigit_hexCharUpper : ∀ m, m < 16 →
    isUpperHexDigit (hexCharUpper m) = true := by
  decide

theorem hexDigitsGo_allUpper (fuel : Nat) :
    ∀ n, (hexDigitsGo fuel n).all isUpperHexDigit = true := by
  induction fuel with
  | zero => intro n; rfl
  | succ fuel ih =>
    intro n
    by_cases h : n = 0
    · simp [hexDigitsGo, h]
    · have h16 : n % 16 < 16 := Nat.mod_lt _ (by norm_num)
      simp only [hexDigitsGo, h, if_false, List.all_append, List.all_cons, List.all_nil]
      simp [ih (n / 16), isUpperHexDigit_hexCharUpper _ h16]

theorem hexFold_hexDigitsGo (fuel : Nat) :
    ∀ n, n ≤ fuel → ∀ acc,
      hexFold acc (hexDigitsGo fuel n) = acc * 16 ^ (hexDigitsGo fuel n).length + n := by
  induction fuel with
  | zero =>
    intro n hn acc
    interval_cases n
    simp [hexDigitsGo, hexFold]
  | succ fuel ih =>
    intro n hn acc
    by_cases h : n = 0
    · subst h; simp [hexDigitsGo, hexFold]
    · have hlt : n / 16 < fuel + 1 :=
        Nat.lt_of_lt_of_le (Nat.div_lt_self (Nat.pos_of_ne_zero h) (by norm_num)) hn
      have hdiv : n / 16 ≤ fuel := Nat.lt_succ_iff.mp hlt
      have h16 : n % 16 < 16 := Nat.mod_lt _ (by norm_num)
      simp only [hexDigitsGo, h, if_false]
      rw [hexFold_append, hexFold_cons, hexFold_nil]
      rw [ih (n / 16) hdiv acc]
      rw [hexVal?_hexCharUpper _ h16]
      simp only [List.length_append, List.length_cons, List.length_nil]
      calc 16 * (acc * 16 ^ (hexDigitsGo fuel (n / 16)).length + n / 16) + n % 16
          = 16 * (acc * 16 ^ (hexDigitsGo fuel (n / 16)).length)
              + (16 * (n / 16) + n % 16) := by ring
        _ = 16 * (acc * 16 ^ (hexDigitsGo fuel (n / 16)).length) + n := by
              rw [Nat.div_add_mod]
        _ = acc * 16 ^ ((hexDigitsGo fuel (n / 16)).length + (0 + 1)) + n := by
              rw [pow_succ]; ring_nf


theorem hexDigitsGo_length_le (fuel : Nat) :
    ∀ n k, n ≤ fuel → n < 16 ^ k → (hexDigitsGo fuel n).length ≤ k := by
  induction fuel with
  | zero => intro n k hn _; interval_cases n; simp [hexDigitsGo]
  | succ fuel ih =>
    intro n k hn hk
    by_cases h : n = 0
    · simp [hexDigitsGo, h]
    · match k with
      | 0 =>
        exfalso
        exact h (Nat.lt_one_iff.mp (by simpa using hk))
      | Nat.succ k2 =>
        have hdiv : n / 16 ≤ fuel :=
          Nat.lt_succ_iff.mp
            (Nat.lt_of_lt_of_le (Nat.div_lt_self (Nat.pos_of_ne_zero h) (by norm_num)) hn)
        have hdivk : n / 16 < 16 ^ k2 := by
          rw [Nat.div_lt_iff_lt_mul (by norm_num : 0 < 16)]
          calc n < 16 ^ (k2 + 1) := hk
            _ = 16 ^ k2 * 16 := by rw [pow_succ]
        simp only [hexDigitsGo, h, if_false, List.length_append, List.length_cons,
          List.length_nil]
        have := ih (n / 16) k2 hdiv hdivk
        omega

theorem hexDigits_ne_nil (n : Nat) : hexDigits n ≠ [] := by
  unfold hexDigits
  by_cases h : n = 0
  · simp [h]
  · obtain ⟨m, rfl⟩ : ∃ m, n = m + 1 := ⟨n - 1, by omega⟩
    simp [hexDigitsGo, h]

theorem hexDigits_allUpper (n : Nat) : (hexDigits n).all isUpperHexDigit = true := by
  unfold hexDigits
  by_cases h : n = 0
  · simp [h]; decide
  · simp only [h, if_false]
    exact hexDigitsGo_allUpper n n

theorem hexFold_hexDigits (n : Nat) : hexFold 0 (hexDigits n) = n := by
  unfold hexDigits
  by_cases h : n = 0
  · simp [h]; decide
  · simp only [h, if_false]
    have := hexFold_hexDigitsGo n n (le_refl n) 0
    simpa using this

theorem hexDigits_length_le_four (n : Nat) (h : n < 65536) :
    (hexDigits n).length ≤ 4 := by
  unfold hexDigits
  by_cases h0 : n = 0
  · simp [h0]
  · simp only [h0, if_false]
    exact hexDigitsGo_length_le n n 4 (le_refl n) (by norm_num at h ⊢; omega)

theorem dropWhile_eq_self_of_all {p : Nat → Bool} {s : List Nat}
    (h : ∀ c ∈ s, p c = false) : s.dropWhile p = s := by
  cases s with
  | nil => rfl
  | cons a t => simp [List.dropWhile_cons, h a (by simp)]

theorem intStrip_eq_self {s : List Nat} (h : ∀ c ∈ s, isIntSpace c = false) :
    intStrip s = s := by
  unfold intStrip
  rw [dropWhile_eq_self_of_all h, dropWhile_eq_self_of_all, List.reverse_reverse]
  intro c hc
  exact h c (List.mem_reverse.mp hc)

theorem upperHex_range {c : Nat} (h : isUpperHexDigit c = true) :
    (48 ≤ c ∧ c ≤ 57) ∨ (65 ≤ c ∧ c ≤ 70) := by
  simpa [isUpperHexDigit] using h

theorem hexVal?_of_upper {c : Nat} (h : isUpperHexDigit c = true) :
    hexVal? c = some ((hexVal? c).getD 0) := by
  unfold hexVal?
  rcases upperHex_range h with ⟨h1, h2⟩ | ⟨h1, h2⟩
  · rw [if_pos ⟨h1, h2⟩]; rfl
  · rw [if_neg (by omega), if_pos ⟨h1, h2⟩]; rfl

theorem upper_not_space {c : Nat} (h : isUpperHexDigit c = true) :
    isIntSpace c = false := by
  rcases upperHex_range h with ⟨h1, h2⟩ | ⟨h1, h2⟩ <;>
    simp [isIntSpace] <;> omega

theorem upper_ne_underscore {c : Nat} (h : isUpperHexDigit c = true) : c ≠ 95 := by
  rcases upperHex_range h with ⟨h1, h2⟩ | ⟨h1, h2⟩ <;> omega

theorem hexTail_of_allUpper (s : List Nat) :
    ∀ acc, s.all isUpperHexDigit = true → hexTail acc s = some (hexFold acc s) := by
  induction s with
  | nil => intro acc _; rfl
  | cons c t ih =>
    intro acc h
    simp only [List.all_cons, Bool.and_eq_true] at h
    obtain ⟨v, hv⟩ : ∃ v, hexVal? c = some v := ⟨_, hexVal?_of_upper h.1⟩
    have hstep : hexFold acc (c :: t) = hexFold (16 * acc + v) t := by
      rw [hexFold_cons, hv]
      rfl
    rw [hstep]
    rw [hexTail.eq_def]
    simp [upper_ne_underscore h.1, hv]
    exact ih _ h.2

theorem hexBody_of_allUpper {s : List Nat} (hne : s ≠ [])
    (h : s.all isUpperHexDigit = true) : hexBody s = some (hexFold 0 s) := by
  match s, hne with
  | c :: t, _ =>
    simp only [List.all_cons, Bool.and_eq_true] at h
    obtain ⟨v, hv⟩ : ∃ v, hexVal? c = some v := ⟨_, hexVal?_of_upper h.1⟩
    have hstep : hexFold 0 (c :: t) = hexFold v t := by
      rw [hexFold_cons, hv]
      simp
    rw [hstep]
    rw [hexBody.eq_def]
    simp [hv]
    exact hexTail_of_allUpper t _ h.2

theorem hexAfterSign_of_allUpper {s : List Nat}
    (h : s.all isUpperHexDigit = true) : hexAfterSign s = hexBody s := by
  match s with
  | [] => rfl
  | [c] => rfl
  | c0 :: c1 :: rest =>
    simp only [List.all_cons, Bool.and_eq_true] at h
    have h1 := upperHex_range h.2.1
    rw [hexAfterSign, if_neg]
    rintro ⟨-, h120 | h88⟩ <;> omega

theorem pyIntBase16_of_upperHex {s : List Nat} (hne : s ≠ [])
    (h : isHexAscii s = true) : pyIntBase16 s = some ((hexFold 0 s : Nat) : Int) := by
  unfold isHexAscii at h
  have hall : ∀ c ∈ s, isUpperHexDigit c = true := by
    intro c hc; exact List.all_eq_true.mp h c hc
  have hany : s.any (fun c => 128 ≤ c) = false := by
    simp only [List.any_eq_false, decide_eq_true_eq]
    intro c hc
    rcases upperHex_range (hall c hc) with ⟨h1, h2⟩ | ⟨h1, h2⟩ <;> omega
  have hstrip : intStrip s = s :=
    intStrip_eq_self (fun c hc => upper_not_space (hall c hc))
  unfold pyIntBase16
  rw [hany, hstrip]
  simp only [Bool.false_eq_true, if_false]
  match s, hne, h, hall with
  | c :: rest, _, h, hall =>
    have hcrange := upperHex_range (hall c (by simp))
    rw [pyIntSigned, if_neg (by omega), if_neg (by omega)]
    rw [hexAfterSign_of_allUpper h, hexBody_of_allUpper (by simp) h]
    rfl

theorem hexFold_replicate48 (k : Nat) (l : List Nat) :
    hexFold 0 (List.replicate k 48 ++ l) = hexFold 0 l := by
  induction k with
  | zero => rfl
  | succ k ih =>
    rw [List.replicate_succ, List.cons_append, hexFold_cons]
    simpa using ih

theorem isHexAscii_pyFormat04X (n : Nat) : isHexAscii (pyFormat04X n) = true := by
  unfold isHexAscii pyFormat04X
  rw [List.all_append]
  have h1 : (List.replicate (4 - (hexDigits n).length) 48).all isUpperHexDigit = true := by
    rw [List.all_eq_true]
    intro c hc
    rw [List.eq_of_mem_replicate hc]
    decide
  rw [h1, hexDigits_allUpper]
  rfl

theorem pyFormat04X_ne_nil (n : Nat) : pyFormat04X n ≠ [] := by
  unfold pyFormat04X
  intro h
  exact hexDigits_ne_nil n (List.append_eq_nil.mp h).2

/-- Round-trip of the hex rendering through Python's `int(·, 16)`. -/
theorem pyIntBase16_pyFormat04X (n : Nat) :
    pyIntBase16 (pyFormat04X n) = some (n : Int) := by
  rw [pyIntBase16_of_upperHex (pyFormat04X_ne_nil n) (isHexAscii_pyFormat04X n)]
  unfold pyFormat04X
  rw [hexFold_replicate48, hexFold_hexDigits]

theorem length_pyFormat04X {n : Nat} (h : n < 65536) :
    (pyFormat04X n).length = 4 := by
  unfold pyFormat04X
  rw [List.length_append, List.length_replicate]
  have h1 : (hexDigits n).length ≤ 4 := hexDigits_length_le_four n h
  have h2 : (hexDigits n).length ≠ 0 := by
    intro h0
    exact hexDigits_ne_nil n (List.length_eq_zero.mp h0)
  omega

theorem decodeReplace_eq_fifty (l : List Nat) : decodeReplace l = [50] ↔ l = [50] := by
  unfold decodeReplace
  cases l with
  | nil => simp
  | cons c t =>
    cases t with
    | nil =>
      by_cases h : c < 128
      · rw [List.map_cons, List.map_nil, if_pos h]
      · rw [List.map_cons, List.map_nil, if_neg h]
        constructor
        · intro hc
          injection hc with h1 _
          omega
        · intro hc
          injection hc with h1 _
          omega
    | cons d u => simp

/-- The reply classification as the (amended) spec sentence describes it:
empty → EMPTY; no CR terminator or fewer than 6 bytes → MALFORMED;
trailing two checksum characters rejected by Python's `int(·, 16)` →
MALFORMED; control byte 0x15 → NAK; control byte 0x06 with echoed command
`'2'` → ACK_NG, otherwise ACK_OK; any other control byte → UNKNOWN. -/
def specReplyKind (raw : List Nat) : ReplyKind :=
  if raw.length = 0 then .EMPTY
  else if raw.getLast? ≠ some 13 ∨ raw.length < 6 then .MALFORMED
  else if pyIntBase16 ((raw.drop (raw.length - 3)).take 2) = none then .MALFORMED
  else if raw.take 1 = [21] then .NAK
  else if raw.take 1 = [6] then
    if (raw.drop 3).take 1 = [50] then .ACK_NG else .ACK_OK
  else .UNKNOWN

/-- Master description of `_parse_reply`: its classification agrees with
`specReplyKind`, and on every well-formed reply the checksum fields hold
the XOR over `raw[0:-3]` and the received value, with `bccOk` their
comparison; NAK and ACK_NG carry the first two data bytes as their code. -/
theorem parseReply_spec (raw : List Nat) :
    (parseReply raw).kind = specReplyKind raw
    ∧ ((parseReply raw).kind = .NAK ∨ (parseReply raw).kind = .ACK_NG ∨
        (parseReply raw).kind = .ACK_OK ∨ (parseReply raw).kind = .UNKNOWN →
        (parseReply raw).bccCalc = some (replyCalc raw)
        ∧ ∃ r, pyIntBase16 ((raw.drop (raw.length - 3)).take 2) = some r
            ∧ (parseReply raw).bccRecv = some r
            ∧ (parseReply raw).bccOk = (replyCalc raw == r))
    ∧ ((parseReply raw).kind = .NAK → (parseReply raw).nakCode = codeOf raw)
    ∧ ((parseReply raw).kind = .ACK_NG → (parseReply raw).ngCode = codeOf raw) := by
  by_cases h0 : raw = []
  · subst h0; simp [parseReply, specReplyKind]
  · have h02 : ¬ (raw.length = 0) := by simpa [List.length_eq_zero] using h0
    by_cases h1 : raw.getLast? ≠ some 13 ∨ raw.length < 6
    · have hpr : (parseReply raw).kind = .MALFORMED := by
        unfold parseReply
        rw [if_neg h0, if_pos h1]
      have hsk : specReplyKind raw = .MALFORMED := by
        unfold specReplyKind
        rw [if_neg h02, if_pos h1]
      rw [hpr, hsk]
      simp
    · cases hbcc : pyIntBase16 ((raw.drop (raw.length - 3)).take 2) with
      | none =>
        have hpr : (parseReply raw).kind = .MALFORMED := by
          unfold parseReply
          rw [if_neg h0, if_neg h1, hbcc]
        have hsk : specReplyKind raw = .MALFORMED := by
          unfold specReplyKind
          rw [if_neg h02, if_neg h1, hbcc]
          simp
        rw [hpr, hsk]
        simp
      | some r =>
        have hpr : parseReply raw = parseReplyWf raw r := by
          unfold parseReply
          rw [if_neg h0, if_neg h1, hbcc]
        have hsk3 : specReplyKind raw =
            (if raw.take 1 = [21] then ReplyKind.NAK
             else if raw.take 1 = [6] then
               if (raw.drop 3).take 1 = [50] then ReplyKind.ACK_NG else ReplyKind.ACK_OK
             else ReplyKind.UNKNOWN) := by
          unfold specReplyKind
          rw [if_neg h02, if_neg h1, hbcc]
          simp
        rw [hpr, hsk3]
        by_cases h21 : raw.take 1 = [21]
        · unfold parseReplyWf
          rw [if_pos h21, if_pos h21]
          simp [hbcc]
        · by_cases h6 : raw.take 1 = [6]
          · by_cases h50 : (raw.drop 3).take 1 = [50]
            · unfold parseReplyWf
              rw [if_neg h21, if_neg h21, if_pos h6, if_pos h6,
                if_pos ((decodeReplace_eq_fifty _).mpr h50), if_pos h50]
              simp [hbcc]
            · unfold parseReplyWf
              rw [if_neg h21, if_neg h21, if_pos h6, if_pos h6,
                if_neg (fun hc => h50 ((decodeReplace_eq_fifty _).mp hc)),
                if_neg h50]
              simp [hbcc]
          · unfold parseReplyWf
            rw [if_neg h21, if_neg h21, if_neg h6, if_neg h6]
            simp [hbcc]

theorem readWordSerial_pyFormat04X {n : Nat} (h : n < 65536) :
    readWordSerial (pyFormat04X n) = some n := by
  unfold readWordSerial
  rw [if_pos ⟨length_pyFormat04X h, isHexAscii_pyFormat04X n⟩, pyIntBase16_pyFormat04X]
  simp

theorem readFloatBits_pair {a b : Nat} (ha : a < 65536) (hb : b < 65536) :
    readFloatBits (pyFormat04X a ++ pyFormat04X b) 0 = some (b * 65536 + a)
    ∧ readFloatBits (pyFormat04X a ++ pyFormat04X b) 1 = some (a * 65536 + b) := by
  have hla := length_pyFormat04X ha
  have hlb := length_pyFormat04X hb
  have hlen : (pyFormat04X a ++ pyFormat04X b).length = 8 := by
    rw [List.length_append, hla, hlb]
  have hhex : isHexAscii (pyFormat04X a ++ pyFormat04X b) = true := by
    unfold isHexAscii
    rw [List.all_append]
    have h1 := isHexAscii_pyFormat04X a
    have h2 := isHexAscii_pyFormat04X b
    unfold isHexAscii at h1 h2
    rw [h1, h2]
    rfl
  have htake : (pyFormat04X a ++ pyFormat04X b).take 4 = pyFormat04X a := by
    rw [← hla, List.take_left]
  have hdrop : (pyFormat04X a ++ pyFormat04X b).drop 4 = pyFormat04X b := by
    rw [← hla, List.drop_left]
  constructor <;>
    (unfold readFloatBits
     rw [htake, hdrop, pyIntBase16_pyFormat04X, pyIntBase16_pyFormat04X]
     simp [hlen, hhex, ha, hb])

/-- An ACK reply `b"\x06FFR1234" + b"00" + b"\r"` whose received checksum
(0x00) differs from the computed XOR (0x50). -/
def c1resp : List Nat := [6, 70, 70, 82, 49, 50, 51, 52, 48, 48, 13]

/-- C1 counterexample: the socket client's `read_word` silently accepts an
ACK reply whose checksum does not match — it returns the decoded word
0x1234 although the computed XOR (0x50) differs from the received
checksum (0x00).  So "no ACK/NAK/NG reply with a checksum mismatch is
ever silently accepted by any read or write operation" fails as stated. -/
theorem claim_C1_counterexample :
    (parseReply c1resp).kind = .ACK_OK
    ∧ (parseReply c1resp).bccOk = false
    ∧ (parseReply c1resp).bccCalc = some 80
    ∧ (parseReply c1resp).bccRecv = some 0
    ∧ fc6aReadWord c1resp = some 4660 := by
  decide

/-- C1 (amended): in the serial engine, for every reply classified ACK_OK,
ACK_NG or NAK, the checksum is computed as the XOR over all reply bytes
except the trailing two checksum digits and the CR terminator (thus
including the leading control byte), is compared to the received
checksum, and on mismatch `_xfer_once` raises instead of returning the
reply — no ACK/NAK/NG reply with a checksum mismatch is ever returned by
the serial engine's single-transfer routine (through which every serial
read and write operation passes).  The socket client (`fc6a.py`) performs
no checksum validation, see the counterexample. -/
theorem claim_C1 (raw : List Nat)
    (hk : (parseReply raw).kind = .ACK_OK ∨ (parseReply raw).kind = .ACK_NG ∨
      (parseReply raw).kind = .NAK) :
    (parseReply raw).bccCalc = some ((xorBcc (raw.take (raw.length - 3)) : Nat) : Int)
    ∧ (∃ r, (parseReply raw).bccRecv = some r
        ∧ ((parseReply raw).bccOk = true ↔
            ((xorBcc (raw.take (raw.length - 3)) : Nat) : Int) = r))
    ∧ ((parseReply raw).bccOk = false → xferOnceReply raw = none)
    ∧ (∀ rep, xferOnceReply raw = some rep → rep.bccOk = true) := by
  have hk4 : (parseReply raw).kind = .NAK ∨ (parseReply raw).kind = .ACK_NG ∨
      (parseReply raw).kind = .ACK_OK ∨ (parseReply raw).kind = .UNKNOWN := by
    rcases hk with h | h | h
    · exact Or.inr (Or.inr (Or.inl h))
    · exact Or.inr (Or.inl h)
    · exact Or.inl h
  obtain ⟨hcalc, r, hr1, hr2, hr3⟩ := (parseReply_spec raw).2.1 hk4
  refine ⟨hcalc, ⟨r, hr2, ?_⟩, ?_, ?_⟩
  · rw [hr3, beq_iff_eq]
    unfold replyCalc
    exact Iff.rfl
  · intro hfalse
    unfold xferOnceReply
    rw [if_pos ⟨hk, hfalse⟩]
  · intro rep hrep
    unfold xferOnceReply at hrep
    by_cases hcond : ((parseReply raw).kind = .ACK_OK ∨ (parseReply raw).kind = .ACK_NG ∨
        (parseReply raw).kind = .NAK) ∧ (parseReply raw).bccOk = false
    · rw [if_pos hcond] at hrep
      cases hrep
    · rw [if_neg hcond] at hrep
      have heq : parseReply raw = rep := by injection hrep
      have hb : (parseReply raw).bccOk ≠ false := fun hf => hcond ⟨hk, hf⟩
      rw [← heq]
      exact Bool.ne_false_iff.mp hb

theorem claim_C1_witness :
    (parseReply c1resp).bccCalc =
      some ((xorBcc (c1resp.take (c1resp.length - 3)) : Nat) : Int)
    ∧ xferOnceReply c1resp = none := by
  have h := claim_C1 c1resp (by decide)
  exact ⟨h.1, h.2.2.1 (by decide)⟩

/-- A NAK reply whose two trailing checksum characters are `" 1"` — a
space is not a hexadecimal character, yet Python's `int(" 1", 16)`
accepts it, so `_parse_reply` classifies the buffer NAK, not MALFORMED. -/
def c4resp : List Nat := [21, 70, 70, 82, 32, 49, 13]

/-- C4 counterexample: a buffer whose two trailing checksum characters
are not valid hexadecimal ASCII (`" 1"`) is classified NAK, not
MALFORMED, because `int(·, 16)` tolerates surrounding whitespace. -/
theorem claim_C4_counterexample :
    isHexAscii ((c4resp.drop (c4resp.length - 3)).take 2) = false
    ∧ (parseReply c4resp).kind = .NAK := by
  decide

/-- C4 (amended): reply classification is exactly `specReplyKind`: EMPTY
for a zero-length buffer; MALFORMED for a non-empty buffer not ending in
CR or shorter than 6 bytes; MALFORMED when the two trailing checksum
characters are rejected by Python's `int(·, 16)` (which, beyond uppercase
hex ASCII, also tolerates lowercase digits, surrounding whitespace, a
sign, and a `0x` prefix); otherwise NAK for control byte 0x15 (carrying
the first 2 data bytes as rejection code), ACK_NG for control byte 0x06
with echoed command `'2'` (carrying the first 2 data bytes as error
code), ACK_OK for any other 0x06 reply, and UNKNOWN for any other
control byte. -/
theorem claim_C4 (raw : List Nat) :
    (parseReply raw).kind = specReplyKind raw
    ∧ ((parseReply raw).kind = .NAK → (parseReply raw).nakCode = codeOf raw)
    ∧ ((parseReply raw).kind = .ACK_NG → (parseReply raw).ngCode = codeOf raw) :=
  ⟨(parseReply_spec raw).1, (parseReply_spec raw).2.2.1, (parseReply_spec raw).2.2.2⟩

/-- A well-formed NAK reply with rejection code "10" and correct BCC. -/
def c4wit : List Nat := [21, 70, 70, 82, 49, 48, 52, 54, 13]

theorem claim_C4_witness :
    (parseReply c4wit).kind = specReplyKind c4wit
    ∧ (parseReply c4wit).nakCode = codeOf c4wit :=
  ⟨(claim_C4 c4wit).1, (claim_C4 c4wit).2.1 (by decide)⟩

/-- C9: reply parsing is total — `_parse_reply` never raises (in the
embedding it is a total function) and every reply's kind is one of the
six classifications. -/
theorem claim_C9 (raw : List Nat) :
    (parseReply raw).kind = .EMPTY ∨ (parseReply raw).kind = .MALFORMED
    ∨ (parseReply raw).kind = .NAK ∨ (parseReply raw).kind = .ACK_NG
    ∨ (parseReply raw).kind = .ACK_OK ∨ (parseReply raw).kind = .UNKNOWN := by
  cases h : (parseReply raw).kind <;> simp

/-- C2: in auto mode the request is first attempted with the checksum
including the 0x05 marker (`env true`); if and only if the reply is NAK
with rejection code "10" the same request is re-sent exactly once with
the checksum excluding the marker (`env false`) and that retry's reply is
returned; if the retry yields ACK_OK the mode becomes exclude-marker, if
the original attempt yields ACK_OK the mode becomes include-marker, and
in every other outcome the mode stays auto.  The last two conjuncts spell
out what the include/exclude flag means for the built request frame. -/
theorem claim_C2 (env : Bool → List Nat) :
    (xferOnceReply (env true) = none → xfer .auto env = (.auto, none))
    ∧ (∀ rep, xferOnceReply (env true) = some rep →
        rep.kind = .NAK → rep.nakCode = [49, 48] →
          (xfer .auto env).2 = xferOnceReply (env false)
          ∧ (xferOnceReply (env false) = none → (xfer .auto env).1 = .auto)
          ∧ (∀ rep2, xferOnceReply (env false) = some rep2 →
              (xfer .auto env).1 = (if rep2.kind = .ACK_OK then .noEnq else .auto)))
    ∧ (∀ rep, xferOnceReply (env true) = some rep → rep.kind = .ACK_OK →
        xfer .auto env = (.enq, some rep))
    ∧ (∀ rep, xferOnceReply (env true) = some rep →
        ¬ (rep.kind = .NAK ∧ rep.nakCode = [49, 48]) →
          (xfer .auto env).2 = some rep
          ∧ (rep.kind ≠ .ACK_OK → xfer .auto env = (.auto, some rep)))
    ∧ (∀ device cont cmd dtype payload f,
        frameReq device cont cmd dtype payload true = some f →
          f = 5 :: (device ++ cont ++ cmd ++ dtype ++ payload)
              ++ toAsciiHexByte (xorBcc (5 :: (device ++ cont ++ cmd ++ dtype ++ payload)))
              ++ [13])
    ∧ (∀ device cont cmd dtype payload f,
        frameReq device cont cmd dtype payload false = some f →
          f = 5 :: (device ++ cont ++ cmd ++ dtype ++ payload)
              ++ toAsciiHexByte (xorBcc (device ++ cont ++ cmd ++ dtype ++ payload))
              ++ [13]) := by
  have hx : xfer .auto env = xferAuto1 env (xferOnceReply (env true)) := rfl
  refine ⟨?_, ?_, ?_, ?_, ?_, ?_⟩
  · intro h
    rw [hx, h]
    rfl
  · intro rep h hk hcode
    rw [hx, h]
    simp only [xferAuto1, if_pos (And.intro hk hcode)]
    refine ⟨?_, ?_, ?_⟩
    · cases h2 : xferOnceReply (env false) with
      | none => rfl
      | some rep2 => rfl
    · intro h2; rw [h2]; rfl
    · intro rep2 h2; rw [h2]; rfl
  · intro rep h hk
    rw [hx, h]
    have hnot : ¬ (rep.kind = .NAK ∧ rep.nakCode = [49, 48]) := by
      rintro ⟨hnak, -⟩
      rw [hk] at hnak
      cases hnak
    simp only [xferAuto1, if_neg hnot, if_pos hk]
  · intro rep h hncond
    rw [hx, h]
    simp only [xferAuto1, if_neg hncond]
    constructor
    · by_cases hok : rep.kind = .ACK_OK
      · rw [if_pos hok]
      · rw [if_neg hok]
    · intro hne
      rw [if_neg hne]
  · intro device cont cmd dtype payload f hf
    unfold frameReq at hf
    by_cases hcont : cont = [48] ∨ cont = [49]
    · rw [if_neg (not_not_intro hcont)] at hf
      by_cases hlen : cmd.length ≠ 1 ∨ dtype.length ≠ 1
      · rw [if_pos hlen] at hf; cases hf
      · rw [if_neg hlen] at hf
        simp only [Option.some.injEq] at hf
        exact hf.symm
    · rw [if_pos hcont] at hf; cases hf
  · intro device cont cmd dtype payload f hf
    unfold frameReq at hf
    by_cases hcont : cont = [48] ∨ cont = [49]
    · rw [if_neg (not_not_intro hcont)] at hf
      by_cases hlen : cmd.length ≠ 1 ∨ dtype.length ≠ 1
      · rw [if_pos hlen] at hf; cases hf
      · rw [if_neg hlen] at hf
        simp only [Option.some.injEq] at hf
        exact hf.symm
    · rw [if_pos hcont] at hf; cases hf

/-- A NAK reply with rejection code "10" and valid checksum. -/
def c2nak10 : List Nat := [21, 70, 70, 82, 49, 48, 52, 54, 13]

/-- An ACK_OK reply with valid checksum. -/
def c2ack : List Nat := [6, 70, 70, 48, 54, 13]

/-- Transport environment in which the include-marker attempt is refused
with NAK "10" and the exclude-marker retry succeeds. -/
def c2envA (b : Bool) : List Nat := if b then c2nak10 else c2ack

theorem claim_C2_witness :
    (xfer .auto c2envA).2 = xferOnceReply (c2envA false)
    ∧ (xfer .auto c2envA).1 = .noEnq := by
  have h := (claim_C2 c2envA).2.1 (parseReply c2nak10) (by decide) (by decide) (by decide)
  refine ⟨h.1, ?_⟩
  have h2 := h.2.2 (parseReply c2ack) (by decide)
  rw [h2]
  decide

/-- C3: the checksum mode is sticky one-way state.  The session starts in
the constructor-validated mode (auto, or a forced include/exclude mode);
a forced (non-auto) mode performs exactly one transfer with its fixed
flag and never changes; the mode leaves auto only to a fixed value, and
only after a successful negotiation (first attempt ACK_OK for
include-marker; NAK-"10" retry ACK_OK for exclude-marker). -/
theorem claim_C3 :
    initBccMode [97, 117, 116, 111] = some .auto
    ∧ initBccMode [101, 110, 113] = some .enq
    ∧ initBccMode [110, 111, 95, 101, 110, 113] = some .noEnq
    ∧ (∀ s m, initBccMode s = some m →
        s = [97, 117, 116, 111] ∨ s = [101, 110, 113]
        ∨ s = [110, 111, 95, 101, 110, 113])
    ∧ (∀ env, xfer .enq env = (.enq, xferOnceReply (env true)))
    ∧ (∀ env, xfer .noEnq env = (.noEnq, xferOnceReply (env false)))
    ∧ (∀ m env, m ≠ .auto → (xfer m env).1 = m)
    ∧ (∀ env, (xfer .auto env).1 = .enq →
        ∃ rep, xferOnceReply (env true) = some rep ∧ rep.kind = .ACK_OK)
    ∧ (∀ env, (xfer .auto env).1 = .noEnq →
        ∃ rep2, xferOnceReply (env false) = some rep2 ∧ rep2.kind = .ACK_OK) := by
  refine ⟨rfl, rfl, rfl, ?_, fun env => rfl, fun env => rfl, ?_, ?_, ?_⟩
  · intro s m h
    unfold initBccMode at h
    by_cases h1 : s = [97, 117, 116, 111]
    · exact Or.inl h1
    · rw [if_neg h1] at h
      by_cases h2 : s = [101, 110, 113]
      · exact Or.inr (Or.inl h2)
      · rw [if_neg h2] at h
        by_cases h3 : s = [110, 111, 95, 101, 110, 113]
        · exact Or.inr (Or.inr h3)
        · rw [if_neg h3] at h
          cases h
  · intro m env hm
    cases m with
    | auto => exact absurd rfl hm
    | enq => rfl
    | noEnq => rfl
  · intro env h
    have hx : xfer .auto env = xferAuto1 env (xferOnceReply (env true)) := rfl
    rw [hx] at h
    cases h1 : xferOnceReply (env true) with
    | none => rw [h1] at h; cases h
    | some rep =>
      rw [h1] at h
      simp only [xferAuto1] at h
      by_cases hcond : rep.kind = .NAK ∧ rep.nakCode = [49, 48]
      · rw [if_pos hcond] at h
        cases h2 : xferOnceReply (env false) with
        | none => rw [h2] at h; cases h
        | some rep2 =>
          rw [h2] at h
          simp only [xferAuto2] at h
          by_cases hok : rep2.kind = .ACK_OK
          · rw [if_pos hok] at h; cases h
          · rw [if_neg hok] at h; cases h
      · rw [if_neg hcond] at h
        by_cases hok : rep.kind = .ACK_OK
        · exact ⟨rep, rfl, hok⟩
        · rw [if_neg hok] at h; cases h
  · intro env h
    have hx : xfer .auto env = xferAuto1 env (xferOnceReply (env true)) := rfl
    rw [hx] at h
    cases h1 : xferOnceReply (env true) with
    | none => rw [h1] at h; cases h
    | some rep =>
      rw [h1] at h
      simp only [xferAuto1] at h
      by_cases hcond : rep.kind = .NAK ∧ rep.nakCode = [49, 48]
      · rw [if_pos hcond] at h
        cases h2 : xferOnceReply (env false) with
        | none => rw [h2] at h; cases h
        | some rep2 =>
          rw [h2] at h
          simp only [xferAuto2] at h
          by_cases hok : rep2.kind = .ACK_OK
          · exact ⟨rep2, rfl, hok⟩
          · rw [if_neg hok] at h; cases h
      · rw [if_neg hcond] at h
        by_cases hok : rep.kind = .ACK_OK
        · rw [if_pos hok] at h; cases h
        · rw [if_neg hok] at h; cases h

/-- A transport environment that never answers. -/
def c3env : Bool → List Nat := fun _ => []

theorem claim_C3_witness :
    xfer .enq c3env = (.enq, xferOnceReply (c3env true))
    ∧ (xfer .noEnq c3env).1 = .noEnq := by
  have h := claim_C3
  exact ⟨h.2.2.2.2.1 c3env, h.2.2.2.2.2.2.1 .noEnq c3env (by decide)⟩

theorem head?_eq_cons {l : List Nat} {a : Nat} (h : l.head? = some a) :
    ∃ t, l = a :: t := by
  cases l with
  | nil => cases h
  | cons b t =>
    injection h with h2
    exact ⟨t, by rw [h2]⟩

/-- C5: `"D0100"` parses to `('D', 100)` and `"M8070"` to `('M', 8070)`;
a bare int with an explicit 1-character type parses to that pair; parsing
fails when the numeric portion of a string address is not all digits or
when a bare int comes without a type; and the operand field construction
(`_pad4`) fails outside 0..9999. -/
theorem claim_C5 :
    parseAddr (.ofStr [68, 48, 49, 48, 48]) none = some ([68], 100)
    ∧ parseAddr (.ofStr [77, 56, 48, 55, 48]) none = some ([77], 8070)
    ∧ (∀ (n : Int) (d : List Nat), d.length = 1 →
        parseAddr (.ofInt n) (some d) = some (d, n))
    ∧ (∀ (s : List Nat) (d : Option (List Nat)), 2 ≤ (pyStrip s).length →
        ¬ ((pyStrip s).drop 1).all isDigitChar = true →
        parseAddr (.ofStr s) d = none)
    ∧ (∀ n : Int, parseAddr (.ofInt n) none = none)
    ∧ (∀ num : Int, num < 0 ∨ 9999 < num → pad4 num = none)
    ∧ (∀ (op v : Int), op < 0 ∨ 9999 < op → writeWordSerial op v = none) := by
  refine ⟨by decide, by decide, ?_, ?_, fun n => rfl, ?_, ?_⟩
  · intro n d hd
    simp only [parseAddr]
    rw [if_pos hd]
  · intro s d h2 hdig
    simp only [parseAddr]
    rw [if_neg (by omega), if_neg hdig]
  · intro num h
    unfold pad4
    rw [if_pos h]
  · intro op v h
    unfold writeWordSerial pad4
    rw [if_pos h]
    rfl

theorem claim_C5_witness :
    parseAddr (.ofInt 7) (some [88]) = some ([88], 7)
    ∧ parseAddr (.ofStr [68, 49, 65, 48]) none = none
    ∧ pad4 10000 = none
    ∧ writeWordSerial 10000 1 = none := by
  have h := claim_C5
  exact ⟨h.2.2.1 7 [88] (by decide), h.2.2.2.1 [68, 49, 65, 48] none (by decide) (by decide),
    h.2.2.2.2.2.1 10000 (by decide), h.2.2.2.2.2.2 10000 1 (by decide)⟩

/-- C6 counterexample: `FC6AMaint.write_word` does not mask its value —
at `v = 0x10000` it encodes the 5-character field `"10000"` (not 4 hex
characters of the masked value), and decoding the echoed field yields
65536, not `v & 0xFFFF = 0`. -/
theorem claim_C6_counterexample :
    fc6aWriteDataHex 65536 = [49, 48, 48, 48, 48]
    ∧ (fc6aWriteDataHex 65536).length ≠ 4
    ∧ pyIntBase16 (fc6aWriteDataHex 65536) = some 65536
    ∧ 65536 % 65536 = 0 := by
  decide

/-- C6 (amended): the serial engine's word write masks its value with
`& 0xFFFF` before encoding it as four hex ASCII characters and returns
the masked value, so for every `v` in 0..0x1FFFF the encoded field
decodes back to `v % 0x10000`.  The socket client's `write_word` encodes
the value unmasked (`f"{value:04X}"`), so its round-trip returns
`v & 0xFFFF` only for `v ≤ 0xFFFF`. -/
theorem claim_C6 :
    (∀ v : Nat, v ≤ 131071 →
        wordField (v : Int) = pyFormat04X (v % 65536)
        ∧ readWordSerial (wordField (v : Int)) = some (v % 65536)
        ∧ (∀ op p r, writeWordSerial op (v : Int) = some (p, r) →
            r = ((v % 65536 : Nat) : Int)))
    ∧ (∀ v : Nat, v ≤ 65535 → pyIntBase16 (fc6aWriteDataHex v) = some (v : Int)) := by
  constructor
  · intro v _
    have hmask : (((v : Nat) : Int) % 65536).toNat = v % 65536 := by omega
    have hw : wordField (v : Int) = pyFormat04X (v % 65536) := by
      unfold wordField
      rw [hmask]
    refine ⟨hw, ?_, ?_⟩
    · rw [hw]
      exact readWordSerial_pyFormat04X (by omega)
    · intro op p r hr
      unfold writeWordSerial at hr
      cases hp : pad4 op with
      | none => rw [hp] at hr; cases hr
      | some p0 =>
        rw [hp] at hr
        simp only [Option.map_some', Option.some.injEq, Prod.mk.injEq] at hr
        rw [← hr.2]
        omega
  · intro v _
    exact pyIntBase16_pyFormat04X v

theorem claim_C6_witness :
    readWordSerial (wordField ((70000 : Nat) : Int)) = some (70000 % 65536)
    ∧ pyIntBase16 (fc6aWriteDataHex 4660) = some 4660 := by
  have h := claim_C6
  exact ⟨(h.1 70000 (by decide)).2.1, h.2 4660 (by decide)⟩

/-- C7 counterexample: for raw register words 0x0000, 0x0000 the two
endian modes decode to the same 32-bit pattern (hence the same float,
0.0), so "for the same raw register words the two endian modes do not
return the same value" fails as a statement about every register pair. -/
theorem claim_C7_counterexample :
    readFloatBits (pyFormat04X 0 ++ pyFormat04X 0) 0
      = readFloatBits (pyFormat04X 0 ++ pyFormat04X 0) 1
    ∧ readFloatBits (pyFormat04X 0 ++ pyFormat04X 0) 0 = some 0 := by
  decide

/-- C7 (amended): the float word-order round trip, at the level of the 32-bit
IEEE-754 patterns that `struct.pack(">f", ·)`/`struct.unpack(">f", ·)`
exchange: for both endian flags, writing the two words of a 32-bit
pattern and decoding the resulting 8-hex-character field with the same
flag returns the pattern bit-exactly (hence the returned float is exactly
the float32-rounded value, within float32 rounding tolerance of the
input); and for the same raw register words the two endian flags decode
to different patterns whenever the two words differ (endian 0 takes the
word at the lower address as the low half, endian 1 as the high half). -/
theorem claim_C7 :
    (∀ bits : Nat, bits < 4294967296 → ∀ field,
        (writeFloatField bits 0 = some field → readFloatBits field 0 = some bits)
        ∧ (writeFloatField bits 1 = some field → readFloatBits field 1 = some bits))
    ∧ (∀ w0 w1 : Nat, w0 < 65536 → w1 < 65536 → w0 ≠ w1 →
        readFloatBits (pyFormat04X w0 ++ pyFormat04X w1) 0
          ≠ readFloatBits (pyFormat04X w0 ++ pyFormat04X w1) 1) := by
  constructor
  · intro bits hb field
    have hhi : bits / 65536 < 65536 := by omega
    have hlo : bits % 65536 < 65536 := by omega
    constructor
    · intro hw
      unfold writeFloatField at hw
      rw [if_pos rfl] at hw
      injection hw with hw2
      rw [← hw2, (readFloatBits_pair hlo hhi).1]
      congr 1
      omega
    · intro hw
      unfold writeFloatField at hw
      rw [if_neg (by norm_num), if_pos rfl] at hw
      injection hw with hw2
      rw [← hw2, (readFloatBits_pair hhi hlo).2]
      congr 1
      omega
  · intro w0 w1 h0 h1 hne
    rw [(readFloatBits_pair h0 h1).1, (readFloatBits_pair h0 h1).2]
    intro hcontra
    simp only [Option.some.injEq] at hcontra
    omega

theorem claim_C7_witness :
    readFloatBits ([48, 48, 48, 48] ++ [51, 70, 56, 48]) 0 = some 1065353216
    ∧ readFloatBits (pyFormat04X 16256 ++ pyFormat04X 0) 0
        ≠ readFloatBits (pyFormat04X 16256 ++ pyFormat04X 0) 1 := by
  exact ⟨(claim_C7.1 1065353216 (by decide) ([48, 48, 48, 48] ++ [51, 70, 56, 48])).1 (by decide),
    claim_C7.2 16256 0 (by decide) (by decide) (by decide)⟩

/-- C8: `output(0, on=1)` builds exactly the 5-character payload "00001"
with data type `'y'` and `output(7, on=1)` builds "00071"; `input(7)`
reads bit operand 7 with the X bit class (lowercase wire letter `'x'`,
payload "0007"); and direction-mismatched aliases — I or X given to
`output`, Q or Y given to `input` — fail in `_parse_io` before any I/O. -/
theorem claim_C8 :
    output (.ofInt 0) 1 = some ([121], [48, 48, 48, 48, 49], 1)
    ∧ output (.ofInt 7) 1 = some ([121], [48, 48, 48, 55, 49], 1)
    ∧ inputOp (.ofInt 7) = some ([120], [48, 48, 48, 55])
    ∧ (∀ s onv, (pyUpper (pyStrip s)).head? = some 73 → output (.ofStr s) onv = none)
    ∧ (∀ s onv, (pyUpper (pyStrip s)).head? = some 88 → output (.ofStr s) onv = none)
    ∧ (∀ s, (pyUpper (pyStrip s)).head? = some 81 → inputOp (.ofStr s) = none)
    ∧ (∀ s, (pyUpper (pyStrip s)).head? = some 89 → inputOp (.ofStr s) = none) := by
  refine ⟨by decide, by decide, by decide, ?_, ?_, ?_, ?_⟩
  · intro s onv h
    obtain ⟨t, ht⟩ := head?_eq_cons h
    unfold output
    simp only [parseIoAddr, ht, parseIoStr]
    norm_num
  · intro s onv h
    obtain ⟨t, ht⟩ := head?_eq_cons h
    unfold output
    simp only [parseIoAddr, ht, parseIoStr]
    norm_num
  · intro s h
    obtain ⟨t, ht⟩ := head?_eq_cons h
    unfold inputOp
    simp only [parseIoAddr, ht, parseIoStr]
    norm_num
  · intro s h
    obtain ⟨t, ht⟩ := head?_eq_cons h
    unfold inputOp
    simp only [parseIoAddr, ht, parseIoStr]
    norm_num

theorem claim_C8_witness :
    output (.ofStr [73, 55]) 1 = none
    ∧ inputOp (.ofStr [81, 48]) = none := by
  have h := claim_C8
  exact ⟨h.2.2.2.1 [73, 55] 1 (by decide), h.2.2.2.2.2.1 [81, 48] (by decide)⟩

/-- C10: the socket client's `read_bits(addr, count)` requests `count`
bytes (the count goes into the request's byte-count field) but its decode
ignores `count` entirely: whenever the reply's first byte is the 0x06
acknowledge marker and byte 4 exists, it returns the single boolean
`resp[4] == '1'` — never a list — with no further validation (a reply the
serial parser classifies MALFORMED is happily accepted). -/
theorem claim_C10 :
    (∀ device addr count, fc6aBuildRead device [77] addr count =
        fc6aFrame ([5] ++ device ++ [48, 82] ++ [77]
          ++ pyFormat04d addr ++ pyFormat02X count))
    ∧ (∀ resp c, resp.head? = some 6 → resp.get? 4 = some c →
        fc6aReadBits resp = some (c == 49))
    ∧ fc6aReadBits [6, 48, 48, 48, 49] = some true
    ∧ (parseReply [6, 48, 48, 48, 49]).kind = .MALFORMED := by
  refine ⟨fun device addr count => rfl, ?_, by decide, by decide⟩
  intro resp c h1 h4
  obtain ⟨t, ht⟩ := head?_eq_cons h1
  unfold fc6aReadBits
  rw [if_neg (by rw [ht]; exact List.cons_ne_nil 6 t), if_neg (by rw [h1]; simp), h4]
  rfl

theorem claim_C10_witness :
    fc6aReadBits [6, 48, 48, 48, 49, 99] = some true := by
  have h := claim_C10.2.1 [6, 48, 48, 48, 49, 99] 49 (by decide) (by decide)
  simpa using h

end FC6A
